import Mathlib

/-!
Shallow embedding of the deploy/cleanup orchestration CLI
(`cli/src/lib/{normalize,health,docker,pulumi,validation}.ts` and
`cli/src/commands/deploy.ts`).  Strings are modelled as `List Char`
(code points); the claims only exercise the ASCII range, where this
agrees with JavaScript UTF-16 strings.
-/

/-- 32-bit wraparound, written explicitly as `% 2^32`. -/
def w32 (n : Nat) : Nat := n % 4294967296

/-- Bitwise complement on 32 bits. -/
def not32 (x : Nat) : Nat := 4294967295 - w32 x

/-- 32-bit left rotation. -/
def rotl32 (x s : Nat) : Nat := w32 (w32 x <<< s) ||| (w32 x >>> (32 - s))

/-- The 64 MD5 sine-derived round constants. -/
def md5K : List Nat :=
  [3614090360, 3905402710, 606105819, 3250441966, 4118548399, 1200080426,
   2821735955, 4249261313, 1770035416, 2336552879, 4294925233, 2304563134,
   1804603682, 4254626195, 2792965006, 1236535329, 4129170786, 3225465664,
   643717713, 3921069994, 3593408605, 38016083, 3634488961, 3889429448,
   568446438, 3275163606, 4107603335, 1163531501, 2850285829, 4243563512,
   1735328473, 2368359562, 4294588738, 2272392833, 1839030562, 4259657740,
   2763975236, 1272893353, 4139469664, 3200236656, 681279174, 3936430074,
   3572445317, 76029189, 3654602809, 3873151461, 530742520, 3299628645,
   4096336452, 1126891415, 2878612391, 4237533241, 1700485571, 2399980690,
   4293915773, 2240044497, 1873313359, 4264355552, 2734768916, 1309151649,
   4149444226, 3174756917, 718787259, 3951481745]

/-- The MD5 per-round left-rotation amounts. -/
def md5S : List Nat :=
  [7, 12, 17, 22, 7, 12, 17, 22, 7, 12, 17, 22, 7, 12, 17, 22,
   5, 9, 14, 20, 5, 9, 14, 20, 5, 9, 14, 20, 5, 9, 14, 20,
   4, 11, 16, 23, 4, 11, 16, 23, 4, 11, 16, 23, 4, 11, 16, 23,
   6, 10, 15, 21, 6, 10, 15, 21, 6, 10, 15, 21, 6, 10, 15, 21]

/-- MD5 round function, selected by round index. -/
def md5F (i b c d : Nat) : Nat :=
  if i < 16 then (b &&& c) ||| (not32 b &&& d)
  else if i < 32 then (d &&& b) ||| (not32 d &&& c)
  else if i < 48 then b ^^^ c ^^^ d
  else c ^^^ (b ||| not32 d)

/-- MD5 message-word index for round `i`. -/
def md5G (i : Nat) : Nat :=
  if i < 16 then i
  else if i < 32 then (5 * i + 1) % 16
  else if i < 48 then (3 * i + 5) % 16
  else (7 * i) % 16

/-- Little-endian 32-bit word starting at byte offset `j` of a block. -/
def leWord (block : List Nat) (j : Nat) : Nat :=
  block.getD j 0 + 256 * block.getD (j + 1) 0 +
    65536 * block.getD (j + 2) 0 + 16777216 * block.getD (j + 3) 0

/-- One MD5 round step on state `(a, b, c, d)`. -/
def md5Step (block : List Nat) (st : Nat × Nat × Nat × Nat) (i : Nat) :
    Nat × Nat × Nat × Nat :=
  match st with
  | (a, b, c, d) =>
    let f := md5F i b c d
    let x := w32 (a + f + md5K.getD i 0 + leWord block (4 * md5G i))
    (d, w32 (b + rotl32 x (md5S.getD i 0)), b, c)

/-- MD5 compression of one 64-byte block. -/
def md5Compress (st : Nat × Nat × Nat × Nat) (block : List Nat) :
    Nat × Nat × Nat × Nat :=
  match st, (List.range 64).foldl (md5Step block) st with
  | (a, b, c, d), (a2, b2, c2, d2) =>
    (w32 (a + a2), w32 (b + b2), w32 (c + c2), w32 (d + d2))

/-- MD5 padding: append `0x80`, zero-pad to 56 mod 64, append the
64-bit little-endian bit length of the original message. -/
def md5Pad (msg : List Nat) : List Nat :=
  let bitLen := (8 * msg.length) % 18446744073709551616
  let padZeros := (120 - (msg.length + 1) % 64) % 64
  msg ++ [128] ++ List.replicate padZeros 0 ++
    [bitLen % 256, bitLen / 256 % 256, bitLen / 65536 % 256,
     bitLen / 16777216 % 256, bitLen / 4294967296 % 256,
     bitLen / 1099511627776 % 256, bitLen / 281474976710656 % 256,
     bitLen / 72057594037927936 % 256]

/-- Split a byte list into 64-byte chunks (structural recursion on a
fuel counter that is at least the list length). -/
def chunksAux : Nat → List Nat → List (List Nat)
  | _, [] => []
  | 0, _ :: _ => []
  | fuel + 1, a :: t => (a :: t).take 64 :: chunksAux fuel ((a :: t).drop 64)

/-- Split a byte list into 64-byte chunks. -/
def chunks64 (l : List Nat) : List (List Nat) := chunksAux l.length l

/-- Little-endian byte serialization of a 32-bit word. -/
def leBytes (x : Nat) : List Nat :=
  [x % 256, x / 256 % 256, x / 65536 % 256, x / 16777216 % 256]

/-- MD5 digest (16 bytes) of a byte list. -/
def md5Bytes (msg : List Nat) : List Nat :=
  match (chunks64 (md5Pad msg)).foldl md5Compress
      (1732584193, 4023233417, 2562383102, 271733878) with
  | (a, b, c, d) => leBytes a ++ leBytes b ++ leBytes c ++ leBytes d

/-- UTF-8 encoding of one code point. -/
def utf8Char (c : Char) : List Nat :=
  let n := c.toNat
  if n < 128 then [n]
  else if n < 2048 then [192 ||| (n >>> 6), 128 ||| (n &&& 63)]
  else if n < 65536 then
    [224 ||| (n >>> 12), 128 ||| ((n >>> 6) &&& 63), 128 ||| (n &&& 63)]
  else
    [240 ||| (n >>> 18), 128 ||| ((n >>> 12) &&& 63),
     128 ||| ((n >>> 6) &&& 63), 128 ||| (n &&& 63)]

/-- UTF-8 encoding of a string (the encoding `crypto.createHash .update`
applies to a JavaScript string). -/
def utf8Bytes (s : List Char) : List Nat := (s.map utf8Char).flatten

/-- Lowercase hex digit for `n % 16`. -/
def hexDigitChar (n : Nat) : Char :=
  if n % 16 < 10 then Char.ofNat (48 + n % 16) else Char.ofNat (87 + n % 16)

/-- Two lowercase hex digits of a byte. -/
def byteToHex (b : Nat) : List Char := [hexDigitChar (b / 16), hexDigitChar b]

/-- `createHash("md5").update(s).digest("hex")`: 32 lowercase hex chars. -/
def md5hex (s : List Char) : List Char :=
  ((md5Bytes (utf8Bytes s)).map byteToHex).flatten

/-! ## Branch normalizer (`normalizeBranch`, cli/src/lib/normalize.ts) -/

/-- `c` is a lowercase ASCII letter. -/
def isLowerLetter (c : Char) : Bool := 'a' ≤ c && c ≤ 'z'

/-- `c` is an ASCII digit. -/
def isDigitChar (c : Char) : Bool := '0' ≤ c && c ≤ '9'

/-- `c` matches `[a-z0-9]`. -/
def isLowerAlnum (c : Char) : Bool := isLowerLetter c || isDigitChar c

/-- Per-code-point model of `String.prototype.toLowerCase`: lowercases
ASCII `A`–`Z` and leaves other code points unchanged (the claims only
exercise the ASCII range). -/
def jsToLower (c : Char) : Char :=
  if 'A' ≤ c && c ≤ 'Z' then Char.ofNat (c.toNat + 32) else c

/-- One character of the lowercase-then-replace-non-alphanumerics-with-hyphen step. -/
def sanitizeChar (c : Char) : Char :=
  if isLowerAlnum (jsToLower c) then jsToLower c else '-'

/-- Collapse runs of hyphens to one hyphen (the global `-+` to `-` replacement). -/
def collapseDashes : List Char → List Char
  | [] => []
  | [c] => [c]
  | a :: b :: rest =>
    if a = '-' ∧ b = '-' then collapseDashes (b :: rest)
    else a :: collapseDashes (b :: rest)

/-- Drop one leading hyphen (the anchored leading-hyphen replacement). -/
def dropLeadingDash : List Char → List Char
  | [] => []
  | c :: rest => if c = '-' then rest else c :: rest

/-- Drop one trailing hyphen (the anchored trailing-hyphen replacement). -/
def dropTrailingDash (s : List Char) : List Char :=
  if s.getLast? = some '-' then s.dropLast else s

/-- The leading-digit regex test. -/
def startsWithDigit : List Char → Bool
  | c :: _ => isDigitChar c
  | [] => false

/-- The normalized form before the length cap is applied: lowercase,
replace non-alphanumerics with `-`, collapse `-` runs, strip one
leading and one trailing `-`, and prepend `b-` if the result starts
with a digit (lines 82–92 of `normalizeBranch`). -/
def strippedForm (branch : List Char) : List Char :=
  dropTrailingDash (dropLeadingDash (collapseDashes (branch.map sanitizeChar)))

def preNorm (branch : List Char) : List Char :=
  if startsWithDigit (strippedForm branch) then 'b' :: '-' :: strippedForm branch
  else strippedForm branch

/-- `normalizeBranch(branch, maxLength)` (cli/src/lib/normalize.ts): the
pre-normalized form, hash-truncated to the length cap when it is too
long, with a final trailing-hyphen strip. -/
def normalizeBranch (branch : List Char) (maxLength : Nat) : List Char :=
  let n := preNorm branch
  let n2 :=
    if maxLength < n.length then
      n.take (maxLength - 7) ++ '-' :: (md5hex branch).take 6
    else n
  dropTrailingDash n2

/-! ## Structural lemmas about the normalizer -/

/-- No two adjacent hyphens. -/
def noDD : List Char → Prop
  | [] => True
  | [_] => True
  | a :: b :: rest => ¬(a = '-' ∧ b = '-') ∧ noDD (b :: rest)

theorem noDD_tail (a : Char) (l : List Char) (h : noDD (a :: l)) : noDD l := by
  cases l with
  | nil => trivial
  | cons b t => exact h.2

theorem noDD_no_adj : ∀ zs ws : List Char, ¬ noDD (zs ++ '-' :: '-' :: ws)
  | [], ws => fun h => h.1 ⟨rfl, rfl⟩
  | a :: zs, ws => fun h => noDD_no_adj zs ws (noDD_tail a _ h)

theorem collapse_cons : ∀ (a : Char) (rest : List Char),
    ∃ t, collapseDashes (a :: rest) = a :: t
  | _, [] => ⟨[], rfl⟩
  | a, b :: rest => by
    by_cases hab : a = '-' ∧ b = '-'
    · obtain ⟨t, ht⟩ := collapse_cons b rest
      refine ⟨t, ?_⟩
      rw [show collapseDashes (a :: b :: rest) = collapseDashes (b :: rest) by
        simp only [collapseDashes, if_pos hab], ht, hab.1, hab.2]
    · exact ⟨collapseDashes (b :: rest), by simp only [collapseDashes, if_neg hab]⟩

theorem noDD_collapse : ∀ s : List Char, noDD (collapseDashes s)
  | [] => trivial
  | [c] => by simp only [collapseDashes]; trivial
  | a :: b :: rest => by
    have ih := noDD_collapse (b :: rest)
    by_cases hab : a = '-' ∧ b = '-'
    · simpa only [collapseDashes, if_pos hab] using ih
    · obtain ⟨t, ht⟩ := collapse_cons b rest
      simp only [collapseDashes, if_neg hab, ht]
      rw [ht] at ih
      exact ⟨hab, ih⟩

theorem mem_collapse : ∀ (s : List Char) (c : Char), c ∈ collapseDashes s → c ∈ s
  | [], _, h => h
  | [d], c, h => by simpa only [collapseDashes] using h
  | a :: b :: rest, c, h => by
    by_cases hab : a = '-' ∧ b = '-'
    · rw [show collapseDashes (a :: b :: rest) = collapseDashes (b :: rest) by
        simp only [collapseDashes, if_pos hab]] at h
      exact List.mem_cons_of_mem a (mem_collapse (b :: rest) c h)
    · rw [show collapseDashes (a :: b :: rest) = a :: collapseDashes (b :: rest) by
        simp only [collapseDashes, if_neg hab]] at h
      rcases List.mem_cons.mp h with h | h
      · exact h ▸ List.mem_cons_self a _
      · exact List.mem_cons_of_mem a (mem_collapse (b :: rest) c h)

theorem mem_dropLeadingDash (s : List Char) (c : Char)
    (h : c ∈ dropLeadingDash s) : c ∈ s := by
  cases s with
  | nil => exact h
  | cons a rest =>
    by_cases ha : a = '-'
    · rw [show dropLeadingDash (a :: rest) = rest by
        simp only [dropLeadingDash, if_pos ha]] at h
      exact List.mem_cons_of_mem a h
    · rwa [show dropLeadingDash (a :: rest) = a :: rest by
        simp only [dropLeadingDash, if_neg ha]] at h

theorem noDD_dropLeadingDash (s : List Char) (h : noDD s) :
    noDD (dropLeadingDash s) := by
  cases s with
  | nil => trivial
  | cons a rest =>
    by_cases ha : a = '-'
    · rw [show dropLeadingDash (a :: rest) = rest by
        simp only [dropLeadingDash, if_pos ha]]
      exact noDD_tail a rest h
    · rwa [show dropLeadingDash (a :: rest) = a :: rest by
        simp only [dropLeadingDash, if_neg ha]]

theorem head_dropLeadingDash (s : List Char) (h : noDD s) :
    dropLeadingDash s = [] ∨
      ∃ c t, dropLeadingDash s = c :: t ∧ c ≠ '-' := by
  cases s with
  | nil => exact Or.inl rfl
  | cons a rest =>
    by_cases ha : a = '-'
    · rw [show dropLeadingDash (a :: rest) = rest by
        simp only [dropLeadingDash, if_pos ha]]
      cases rest with
      | nil => exact Or.inl rfl
      | cons b t =>
        refine Or.inr ⟨b, t, rfl, fun hb => ?_⟩
        exact h.1 ⟨ha, hb⟩
    · rw [show dropLeadingDash (a :: rest) = a :: rest by
        simp only [dropLeadingDash, if_neg ha]]
      exact Or.inr ⟨a, rest, rfl, ha⟩

theorem mem_dropTrailingDash (s : List Char) (c : Char)
    (h : c ∈ dropTrailingDash s) : c ∈ s := by
  unfold dropTrailingDash at h
  split at h
  · exact (List.dropLast_sublist s).mem h
  · exact h

theorem getLast?_dropTrailingDash (s : List Char) (h : noDD s) :
    (dropTrailingDash s).getLast? ≠ some '-' := by
  unfold dropTrailingDash
  split
  · next hl =>
    obtain ⟨ys, rfl⟩ := List.getLast?_eq_some_iff.mp hl
    rw [List.dropLast_concat]
    intro hy
    obtain ⟨zs, rfl⟩ := List.getLast?_eq_some_iff.mp hy
    exact noDD_no_adj zs [] (by simpa using h)
  · next hl => exact hl

theorem head_dropTrailingDash (a : Char) (t : List Char) :
    dropTrailingDash (a :: t) = [] ∨
      ∃ t2, dropTrailingDash (a :: t) = a :: t2 := by
  unfold dropTrailingDash
  split
  · cases t with
    | nil => exact Or.inl rfl
    | cons b zs => exact Or.inr ⟨(b :: zs).dropLast, List.dropLast_cons₂⟩
  · exact Or.inr ⟨t, rfl⟩

theorem sanitize_mem (d : Char) :
    isLowerAlnum (sanitizeChar d) = true ∨ sanitizeChar d = '-' := by
  unfold sanitizeChar
  by_cases h : isLowerAlnum (jsToLower d) = true
  · rw [if_pos h]; exact Or.inl h
  · rw [if_neg h]; exact Or.inr rfl

theorem stripped_mem (branch : List Char) (c : Char)
    (h : c ∈ strippedForm branch) :
    isLowerAlnum c = true ∨ c = '-' := by
  unfold strippedForm at h
  have h1 := mem_dropLeadingDash _ _ (mem_dropTrailingDash _ _ h)
  have h2 := mem_collapse _ _ h1
  obtain ⟨d, _, rfl⟩ := List.mem_map.mp h2
  exact sanitize_mem d

theorem preNorm_mem (branch : List Char) (c : Char) (h : c ∈ preNorm branch) :
    isLowerAlnum c = true ∨ c = '-' := by
  unfold preNorm at h
  split at h
  · rcases List.mem_cons.mp h with rfl | h
    · exact Or.inl (by decide)
    · rcases List.mem_cons.mp h with rfl | h
      · exact Or.inr rfl
      · exact stripped_mem branch c h
  · exact stripped_mem branch c h

theorem preNorm_shape (branch : List Char) :
    preNorm branch = [] ∨
      ∃ c t, preNorm branch = c :: t ∧ isLowerLetter c = true := by
  have hND0 := noDD_collapse (branch.map sanitizeChar)
  rcases head_dropLeadingDash _ hND0 with h1 | ⟨c, t, h1, hc⟩
  · left
    unfold preNorm strippedForm
    rw [h1]
    rfl
  · rcases head_dropTrailingDash c t with h2 | ⟨t2, h2⟩
    · left
      unfold preNorm strippedForm
      rw [h1, h2]
      rfl
    · have hcs : c ∈ strippedForm branch := by
        unfold strippedForm
        rw [h1, h2]; exact List.mem_cons_self c t2
      have hAl : isLowerAlnum c = true :=
        (stripped_mem branch c hcs).resolve_right hc
      unfold preNorm strippedForm
      rw [h1, h2]
      by_cases hd : startsWithDigit (c :: t2) = true
      · rw [if_pos hd]
        exact Or.inr ⟨'b', '-' :: c :: t2, rfl, by decide⟩
      · rw [if_neg hd]
        refine Or.inr ⟨c, t2, rfl, ?_⟩
        have hdc : isDigitChar c = false := by
          by_contra hdc
          exact hd (by simp only [startsWithDigit, eq_true_of_ne_false hdc])
        have := hAl
        unfold isLowerAlnum at this
        rcases Bool.or_eq_true_iff.mp this with h | h
        · exact h
        · rw [hdc] at h; exact absurd h (by decide)

theorem preNorm_last (branch : List Char) :
    (preNorm branch).getLast? ≠ some '-' := by
  have hND0 := noDD_collapse (branch.map sanitizeChar)
  have hND1 := noDD_dropLeadingDash _ hND0
  have hlast : (strippedForm branch).getLast? ≠ some '-' :=
    getLast?_dropTrailingDash _ hND1
  unfold preNorm
  split
  · next hd =>
    rcases hs : strippedForm branch with _ | ⟨c, t⟩
    · rw [hs] at hd; exact absurd hd (by decide)
    · rw [hs] at hlast
      rw [List.getLast?_cons_cons, List.getLast?_cons_cons]
      exact hlast
  · exact hlast

/-! ## Shape of the MD5 hex digest -/

/-- `c` matches `[0-9a-f]`. -/
def isHexLower (c : Char) : Bool := isDigitChar c || ('a' ≤ c && c ≤ 'f')

theorem hexDigitChar_props (n : Nat) :
    isHexLower (hexDigitChar n) = true ∧ isLowerAlnum (hexDigitChar n) = true ∧
      hexDigitChar n ≠ '-' := by
  have hlt : n % 16 < 16 := Nat.mod_lt n (by omega)
  unfold hexDigitChar
  generalize n % 16 = k at hlt ⊢
  interval_cases k <;> exact ⟨by decide, by decide, by decide⟩

theorem md5Bytes_length (msg : List Nat) : (md5Bytes msg).length = 16 := by
  unfold md5Bytes
  rcases (chunks64 (md5Pad msg)).foldl md5Compress
      (1732584193, 4023233417, 2562383102, 271733878) with ⟨a, b, c, d⟩
  simp [leBytes]

theorem flatten_byteToHex_length (l : List Nat) :
    ((l.map byteToHex).flatten).length = 2 * l.length := by
  induction l with
  | nil => rfl
  | cons b t ih =>
    simp only [List.map_cons, List.flatten_cons, List.length_append, ih,
      List.length_cons, byteToHex, List.length_cons, List.length_nil]
    omega

theorem md5hex_length (s : List Char) : (md5hex s).length = 32 := by
  unfold md5hex
  rw [flatten_byteToHex_length, md5Bytes_length]

theorem md5hex_mem (s : List Char) (c : Char) (h : c ∈ md5hex s) :
    isHexLower c = true ∧ isLowerAlnum c = true ∧ c ≠ '-' := by
  unfold md5hex at h
  obtain ⟨l, hl, hcl⟩ := List.mem_flatten.mp h
  obtain ⟨b, _, rfl⟩ := List.mem_map.mp hl
  unfold byteToHex at hcl
  rcases List.mem_cons.mp hcl with rfl | hcl
  · exact hexDigitChar_props _
  · rcases List.mem_cons.mp hcl with rfl | hcl
    · exact hexDigitChar_props _
    · exact absurd hcl (List.not_mem_nil c)

/-! ## The DNS-label property of `normalizeBranch` -/

/-- `d` matches `[a-z0-9-]`. -/
def validTailChar (d : Char) : Bool := isLowerAlnum d || d == '-'

/-- The regex `^[a-z][a-z0-9-]*$` as a decidable predicate. -/
def validLabel : List Char → Bool
  | [] => false
  | c :: rest => isLowerLetter c && rest.all validTailChar

theorem normalizeBranch_eq (branch : List Char) (m : Nat) :
    normalizeBranch branch m =
      if m < (preNorm branch).length then
        dropTrailingDash
          ((preNorm branch).take (m - 7) ++ '-' :: (md5hex branch).take 6)
      else dropTrailingDash (preNorm branch) := by
  simp only [normalizeBranch]
  by_cases h : m < (preNorm branch).length
  · rw [if_pos h, if_pos h]
  · rw [if_neg h, if_neg h]

theorem md5take6_shape (branch : List Char) :
    ((md5hex branch).take 6).length = 6 ∧
      ∀ c ∈ (md5hex branch).take 6, isLowerAlnum c = true ∧ c ≠ '-' := by
  constructor
  · rw [List.length_take, md5hex_length]
    decide
  · intro c hc
    have := md5hex_mem branch c ((List.take_sublist 6 _).mem hc)
    exact ⟨this.2.1, this.2.2⟩

theorem hashSuffix_getLast (branch : List Char) (l : List Char) :
    (l ++ '-' :: (md5hex branch).take 6).getLast? ≠ some '-' := by
  obtain ⟨hlen, hmem⟩ := md5take6_shape branch
  rcases h6 : (md5hex branch).take 6 with _ | ⟨x, xs⟩
  · rw [h6] at hlen; exact absurd hlen (by decide)
  · rw [List.getLast?_append, List.getLast?_cons_cons]
    have hne : (x :: xs) ≠ [] := List.cons_ne_nil x xs
    rw [List.getLast?_eq_getLast _ hne]
    have hmem2 : (x :: xs).getLast hne ∈ (md5hex branch).take 6 := by
      rw [h6]; exact List.getLast_mem hne
    have := (hmem _ hmem2).2
    simp only [Option.or_some, ne_eq, Option.some.injEq]
    exact this

/-- The truncated case of `normalizeBranch`, written out: the final
trailing-hyphen strip is a no-op because the suffix ends in a hex char. -/
theorem normalizeBranch_truncated (branch : List Char) (m : Nat)
    (h : m < (preNorm branch).length) :
    normalizeBranch branch m =
      (preNorm branch).take (m - 7) ++ '-' :: (md5hex branch).take 6 := by
  rw [normalizeBranch_eq, if_pos h]
  unfold dropTrailingDash
  rw [if_neg (hashSuffix_getLast branch _)]

/-- The untruncated case of `normalizeBranch`: the final strip is a
no-op because `preNorm` has no trailing hyphen. -/
theorem normalizeBranch_untruncated (branch : List Char) (m : Nat)
    (h : ¬ m < (preNorm branch).length) :
    normalizeBranch branch m = preNorm branch := by
  rw [normalizeBranch_eq, if_neg h]
  unfold dropTrailingDash
  rw [if_neg (preNorm_last branch)]

theorem validTailChar_of (d : Char) (h : isLowerAlnum d = true ∨ d = '-') :
    validTailChar d = true := by
  unfold validTailChar
  rcases h with h | rfl
  · rw [h]; rfl
  · rfl

theorem normalizeBranch_length (branch : List Char) (m : Nat) (hm : 7 ≤ m) :
    (normalizeBranch branch m).length ≤ m := by
  by_cases h : m < (preNorm branch).length
  · rw [normalizeBranch_truncated branch m h]
    obtain ⟨hlen, -⟩ := md5take6_shape branch
    rw [List.length_append, List.length_take, List.length_cons, hlen]
    have : m - 7 ⊓ (preNorm branch).length = m - 7 := by
      rw [min_eq_left]; omega
    omega
  · rw [normalizeBranch_untruncated branch m h]
    omega

theorem normalizeBranch_getLast (branch : List Char) (m : Nat) :
    (normalizeBranch branch m).getLast? ≠ some '-' := by
  by_cases h : m < (preNorm branch).length
  · rw [normalizeBranch_truncated branch m h]
    exact hashSuffix_getLast branch _
  · rw [normalizeBranch_untruncated branch m h]
    exact preNorm_last branch

theorem normalizeBranch_shape (branch : List Char) (m : Nat) (hm : 8 ≤ m) :
    normalizeBranch branch m = [] ∨
      validLabel (normalizeBranch branch m) = true := by
  rcases preNorm_shape branch with hp | ⟨c, t, hp, hc⟩
  · left
    rw [normalizeBranch_untruncated branch m (by rw [hp]; simp), hp]
  · right
    by_cases h : m < (preNorm branch).length
    · rw [normalizeBranch_truncated branch m h, hp]
      have htake : (c :: t).take (m - 7) = c :: t.take (m - 8) := by
        have : m - 7 = (m - 8) + 1 := by omega
        rw [this, List.take_succ_cons]
      rw [htake]
      show validLabel (c :: (t.take (m - 8) ++ '-' :: (md5hex branch).take 6)) = true
      simp only [validLabel]
      rw [hc, Bool.true_and, List.all_append]
      have h1 : (t.take (m - 8)).all validTailChar = true := by
        rw [List.all_eq_true]
        intro d hd
        refine validTailChar_of d (preNorm_mem branch d ?_)
        rw [hp]
        exact List.mem_cons_of_mem c ((List.take_sublist _ _).mem hd)
      have h2 : ('-' :: (md5hex branch).take 6).all validTailChar = true := by
        rw [List.all_cons]
        refine Bool.and_eq_true_iff.mpr ⟨rfl, ?_⟩
        rw [List.all_eq_true]
        intro d hd
        exact validTailChar_of d (Or.inl ((md5take6_shape branch).2 d hd).1)
      rw [h1, h2]
      rfl
    · rw [normalizeBranch_untruncated branch m h, hp]
      simp only [validLabel]
      rw [hc, Bool.true_and, List.all_eq_true]
      intro d hd
      refine validTailChar_of d (preNorm_mem branch d ?_)
      rw [hp]
      exact List.mem_cons_of_mem c hd

set_option maxRecDepth 10000

/-- Matches `a+` then `-` then exactly six `[0-9a-f]` chars, anchored. -/
def matchesAHash (s : List Char) : Bool :=
  let p := s.takeWhile (fun c => c == 'a')
  match s.drop p.length with
  | '-' :: h => (!p.isEmpty) && (h.length == 6) && h.all isHexLower
  | _ => false

/-- C1: `normalizeBranch` is total by construction, and for the two
cloud length caps its output is at most `maxLength` long, has no
trailing hyphen, and either matches `^[a-z][a-z0-9-]*$` or is empty
(the empty output occurs for branches with no alphanumeric character,
which falsifies the unconditional regex part of the claim). -/
theorem claim1_normalize_valid (branch : List Char) (m : Nat)
    (hm : m = 63 ∨ m = 32) :
    (normalizeBranch branch m).length ≤ m ∧
      (normalizeBranch branch m).getLast? ≠ some '-' ∧
      (normalizeBranch branch m = [] ∨
        validLabel (normalizeBranch branch m) = true) := by
  have h8 : 8 ≤ m := by rcases hm with rfl | rfl <;> omega
  exact ⟨normalizeBranch_length branch m (by omega),
    normalizeBranch_getLast branch m, normalizeBranch_shape branch m h8⟩

/-- C1 witness: the amended statement instantiated at a concrete input. -/
theorem claim1_witness :
    ((63 : Nat) = 63 ∨ (63 : Nat) = 32) ∧
      ((normalizeBranch "Feature/ABC".toList 63).length ≤ 63 ∧
        (normalizeBranch "Feature/ABC".toList 63).getLast? ≠ some '-' ∧
        (normalizeBranch "Feature/ABC".toList 63 = [] ∨
          validLabel (normalizeBranch "Feature/ABC".toList 63) = true)) :=
  ⟨Or.inl rfl, claim1_normalize_valid "Feature/ABC".toList 63 (Or.inl rfl)⟩

/-- C1 counterexample: the branch `"_"` (a legal git branch name)
normalizes to the empty string, which does not match
`^[a-z][a-z0-9-]*$`. -/
theorem claim1_counterexample :
    normalizeBranch "_".toList 63 = [] ∧
      validLabel (normalizeBranch "_".toList 63) = false := by decide

/-- C8: the four concrete normalization vectors, and the general
truncation law: whenever the pre-hash normalized form exceeds
`maxLength`, the result is its first `maxLength - 7` characters, a
hyphen, and the first 6 hex characters of the MD5 of the original,
un-normalized branch string. -/
theorem claim8_vectors_and_truncation :
    normalizeBranch "Feature/ABC".toList 63 = "feature-abc".toList ∧
      normalizeBranch "123-feature".toList 63 = "b-123-feature".toList ∧
      normalizeBranch "-leading-".toList 63 = "leading".toList ∧
      ((normalizeBranch (List.replicate 70 'a') 63).length ≤ 63 ∧
        matchesAHash (normalizeBranch (List.replicate 70 'a') 63) = true) ∧
      ∀ (branch : List Char) (m : Nat), m < (preNorm branch).length →
        normalizeBranch branch m =
          (preNorm branch).take (m - 7) ++ '-' :: (md5hex branch).take 6 := by
  refine ⟨by decide, by decide, by decide, ⟨by decide, by decide⟩, ?_⟩
  exact fun branch m h => normalizeBranch_truncated branch m h

/-- C8 witness: the truncation law applied at the 70-`a` branch. -/
theorem claim8_witness :
    normalizeBranch (List.replicate 70 'a') 63 =
      (preNorm (List.replicate 70 'a')).take 56 ++
        '-' :: (md5hex (List.replicate 70 'a')).take 6 :=
  claim8_vectors_and_truncation.2.2.2.2 (List.replicate 70 'a') 63 (by decide)

/-- C9 (amended): at a fixed cap, for branches whose normalized
pre-truncation forms differ, `normalizeBranch` separates them when
neither is over-length, and a collision when both are over-length
forces agreement of the truncated prefixes and of the first 6 hash hex
chars (the hash-truncation coincidence); for branches with equal
normalized forms, the names collide when that form is within the cap
(which falsifies the claim as stated), while over the cap they collide
exactly when the 6-hex hash prefixes of the original branches
coincide — so the 70-char `A`-branch and `a`-branch, sharing one
normalized form, still get distinct names. -/
theorem claim9_injective_mod_hash (b1 b2 : List Char) (m : Nat) :
    (preNorm b1 ≠ preNorm b2 →
      ((preNorm b1).length ≤ m → (preNorm b2).length ≤ m →
        normalizeBranch b1 m ≠ normalizeBranch b2 m) ∧
      (m < (preNorm b1).length → m < (preNorm b2).length →
        normalizeBranch b1 m = normalizeBranch b2 m →
        (preNorm b1).take (m - 7) = (preNorm b2).take (m - 7) ∧
          (md5hex b1).take 6 = (md5hex b2).take 6)) ∧
    (preNorm b1 = preNorm b2 →
      ((preNorm b1).length ≤ m →
        normalizeBranch b1 m = normalizeBranch b2 m) ∧
      (m < (preNorm b1).length →
        (normalizeBranch b1 m = normalizeBranch b2 m ↔
          (md5hex b1).take 6 = (md5hex b2).take 6))) ∧
    (preNorm (List.replicate 70 'A') = preNorm (List.replicate 70 'a') ∧
      normalizeBranch (List.replicate 70 'A') 63 ≠
        normalizeBranch (List.replicate 70 'a') 63) := by
  refine ⟨fun hne => ⟨fun h1 h2 => ?_, fun h1 h2 heq => ?_⟩,
    fun hpe => ⟨fun h1 => ?_, fun h1 => ?_⟩, by decide, by decide⟩
  · rw [normalizeBranch_untruncated b1 m (by omega),
      normalizeBranch_untruncated b2 m (by omega)]
    exact hne
  · rw [normalizeBranch_truncated b1 m h1,
      normalizeBranch_truncated b2 m h2] at heq
    have hlen : ((preNorm b1).take (m - 7)).length =
        ((preNorm b2).take (m - 7)).length := by
      rw [List.length_take, List.length_take]
      omega
    obtain ⟨hpre, hsuf⟩ := List.append_inj heq hlen
    exact ⟨hpre, by injection hsuf⟩
  · rw [normalizeBranch_untruncated b1 m (by omega),
      normalizeBranch_untruncated b2 m (by rw [← hpe]; omega), hpe]
  · rw [normalizeBranch_truncated b1 m h1,
      normalizeBranch_truncated b2 m (by rw [← hpe]; exact h1), hpe]
    simp

/-- C9 witness: two branches with distinct normalized forms, both
under the cap, get distinct names. -/
theorem claim9_witness :
    preNorm "a".toList ≠ preNorm "b".toList ∧
      normalizeBranch "a".toList 63 ≠ normalizeBranch "b".toList 63 :=
  ⟨by decide, ((claim9_injective_mod_hash "a".toList "b".toList 63).1
    (by decide)).1 (by decide) (by decide)⟩

/-- C9 counterexample: the distinct branches `"a.b"` and `"a-b"`
collide without any truncation (both normalized forms are 3 chars,
far below the cap), refuting injectivity-up-to-hash-coincidence. -/
theorem claim9_counterexample :
    normalizeBranch "a.b".toList 63 = normalizeBranch "a-b".toList 63 ∧
      "a.b".toList ≠ "a-b".toList ∧
      (preNorm "a.b".toList).length ≤ 63 ∧
      (preNorm "a-b".toList).length ≤ 63 := by decide

/-! ## Environment validator (cli/src/lib/validation.ts) -/

deriving instance DecidableEq for Except

/-- The two cloud targets. -/
inductive Cloud
  | gcp
  | azure
deriving DecidableEq, Repr

/-- A process environment: `none` models an absent variable. -/
def EnvMap : Type := List Char → Option (List Char)

/-- An environment given by an association list. -/
def envOf (l : List (List Char × List Char)) : EnvMap :=
  fun k => (l.find? (fun p => p.1 == k)).map (fun p => p.2)

/-- JavaScript truthiness of `env.K`: present and non-empty. -/
def hasTruthy (env : EnvMap) (k : List Char) : Bool :=
  match env k with
  | some v => !v.isEmpty
  | none => false

/-- `env.K` is present but the empty string (fails `z.string().min(1)`
with a non-`invalid_type` issue). -/
def presentEmpty (env : EnvMap) (k : List Char) : Bool :=
  match env k with
  | some v => v.isEmpty
  | none => false

/-- Modelled from the spec: zod's email-format check on
`SERVICE_ACCOUNT_EMAIL` (the spec's "generic SchemaError for other
shape violations (e.g. malformed email format)"); the library internals
are not in the repository, so the format is modelled as one `@` with a
nonempty local part and a dotted, nonempty domain. -/
def isEmail (s : List Char) : Bool :=
  match s.splitOn '@' with
  | [lp, domain] =>
    (!lp.isEmpty) && (!domain.isEmpty) && domain.contains '.' &&
      !(domain.head? == some '.') && !(domain.getLast? == some '.')
  | _ => false

/-- The required keys of the GCP schema, in declaration order. -/
def gcpRequiredKeys : List (List Char) :=
  ["GCP_PROJECT".toList, "GCP_PROJECT_NUMBER".toList, "GCP_REGION".toList,
   "STATE_BUCKET".toList, "SERVICE_ACCOUNT_EMAIL".toList,
   "PULUMI_CONFIG_PASSPHRASE".toList]

/-- The required keys of the Azure schema, in declaration order. -/
def azureRequiredKeys : List (List Char) :=
  ["AZURE_CLIENT_ID".toList, "AZURE_TENANT_ID".toList,
   "AZURE_SUBSCRIPTION_ID".toList, "AZURE_RESOURCE_GROUP".toList,
   "STATE_STORAGE_ACCOUNT".toList, "PULUMI_CONFIG_PASSPHRASE".toList]

/-- The absent required keys: the issues zod reports with code
`invalid_type` and received `undefined`, mapped to their paths. -/
def missingKeys (env : EnvMap) (keys : List (List Char)) : List (List Char) :=
  keys.filter (fun k => (env k).isNone)

/-- A GCP schema violation other than an absent key: a present-but-empty
required string, or a present but malformed service-account email. -/
def gcpOtherIssue (env : EnvMap) : Bool :=
  presentEmpty env "GCP_PROJECT".toList ||
  presentEmpty env "GCP_PROJECT_NUMBER".toList ||
  presentEmpty env "GCP_REGION".toList ||
  presentEmpty env "STATE_BUCKET".toList ||
  (match env "SERVICE_ACCOUNT_EMAIL".toList with
   | some v => !isEmail v
   | none => false) ||
  presentEmpty env "PULUMI_CONFIG_PASSPHRASE".toList

/-- An Azure schema violation other than an absent key. -/
def azureOtherIssue (env : EnvMap) : Bool :=
  presentEmpty env "AZURE_CLIENT_ID".toList ||
  presentEmpty env "AZURE_TENANT_ID".toList ||
  presentEmpty env "AZURE_SUBSCRIPTION_ID".toList ||
  presentEmpty env "AZURE_RESOURCE_GROUP".toList ||
  presentEmpty env "STATE_STORAGE_ACCOUNT".toList ||
  presentEmpty env "PULUMI_CONFIG_PASSPHRASE".toList

/-- `z.infer<typeof gcpEnvSchema>`. -/
structure GcpDeployEnv where
  GCP_PROJECT : List Char
  GCP_PROJECT_NUMBER : List Char
  GCP_REGION : List Char
  STATE_BUCKET : List Char
  SERVICE_ACCOUNT_EMAIL : List Char
  PULUMI_CONFIG_PASSPHRASE : List Char
  BITBUCKET_STEP_OIDC_TOKEN : Option (List Char)
  ACTIONS_ID_TOKEN_REQUEST_TOKEN : Option (List Char)
  WIF_POOL_ID : List Char
  WIF_PROVIDER_ID : List Char
deriving DecidableEq, Repr

/-- `z.infer<typeof azureEnvSchema>`. -/
structure AzureDeployEnv where
  AZURE_CLIENT_ID : List Char
  AZURE_TENANT_ID : List Char
  AZURE_SUBSCRIPTION_ID : List Char
  AZURE_RESOURCE_GROUP : List Char
  STATE_STORAGE_ACCOUNT : List Char
  PULUMI_CONFIG_PASSPHRASE : List Char
  BITBUCKET_STEP_OIDC_TOKEN : Option (List Char)
  ACTIONS_ID_TOKEN_REQUEST_TOKEN : Option (List Char)
  AZURE_LOCATION : List Char
deriving DecidableEq, Repr

/-- The two failure modes of `validateGcpEnv` / `validateAzureEnv`:
`DeployEnvError(missingVars, cloud)` and the generic thrown `Error`. -/
inductive ValidationFailure
  | deployEnvError (missingVars : List (List Char)) (cloud : Cloud)
  | schemaError
deriving DecidableEq, Repr

/-- The combined missing-variables entry of `validateOidcToken`. -/
def oidcCombined : List Char :=
  "BITBUCKET_STEP_OIDC_TOKEN or ACTIONS_ID_TOKEN_REQUEST_TOKEN".toList

/-- `validateOidcToken`: requires at least one truthy CI identity token,
and hardcodes the cloud of its error to `"gcp"` (the source comment
says the caller will overwrite it, but no caller does). -/
def validateOidcToken (env : EnvMap) : Option ValidationFailure :=
  if hasTruthy env "BITBUCKET_STEP_OIDC_TOKEN".toList = false ∧
      hasTruthy env "ACTIONS_ID_TOKEN_REQUEST_TOKEN".toList = false then
    some (.deployEnvError [oidcCombined] .gcp)
  else none

/-- The parsed GCP environment on schema success, with zod defaults
applied to the optional keys. -/
def gcpParsedEnv (env : EnvMap) : GcpDeployEnv where
  GCP_PROJECT := (env "GCP_PROJECT".toList).getD []
  GCP_PROJECT_NUMBER := (env "GCP_PROJECT_NUMBER".toList).getD []
  GCP_REGION := (env "GCP_REGION".toList).getD []
  STATE_BUCKET := (env "STATE_BUCKET".toList).getD []
  SERVICE_ACCOUNT_EMAIL := (env "SERVICE_ACCOUNT_EMAIL".toList).getD []
  PULUMI_CONFIG_PASSPHRASE := (env "PULUMI_CONFIG_PASSPHRASE".toList).getD []
  BITBUCKET_STEP_OIDC_TOKEN := env "BITBUCKET_STEP_OIDC_TOKEN".toList
  ACTIONS_ID_TOKEN_REQUEST_TOKEN := env "ACTIONS_ID_TOKEN_REQUEST_TOKEN".toList
  WIF_POOL_ID := (env "WIF_POOL_ID".toList).getD "cicd-deployments".toList
  WIF_PROVIDER_ID := (env "WIF_PROVIDER_ID".toList).getD "bitbucket".toList

/-- The parsed Azure environment on schema success. -/
def azureParsedEnv (env : EnvMap) : AzureDeployEnv where
  AZURE_CLIENT_ID := (env "AZURE_CLIENT_ID".toList).getD []
  AZURE_TENANT_ID := (env "AZURE_TENANT_ID".toList).getD []
  AZURE_SUBSCRIPTION_ID := (env "AZURE_SUBSCRIPTION_ID".toList).getD []
  AZURE_RESOURCE_GROUP := (env "AZURE_RESOURCE_GROUP".toList).getD []
  STATE_STORAGE_ACCOUNT := (env "STATE_STORAGE_ACCOUNT".toList).getD []
  PULUMI_CONFIG_PASSPHRASE := (env "PULUMI_CONFIG_PASSPHRASE".toList).getD []
  BITBUCKET_STEP_OIDC_TOKEN := env "BITBUCKET_STEP_OIDC_TOKEN".toList
  ACTIONS_ID_TOKEN_REQUEST_TOKEN := env "ACTIONS_ID_TOKEN_REQUEST_TOKEN".toList
  AZURE_LOCATION := (env "AZURE_LOCATION".toList).getD "eastus".toList

/-- `validateGcpEnv`: zod `safeParse` (failure reported as the list of
absent keys when nonempty, else the generic error), then the separate
OIDC-token check. -/
def validateGcpEnv (env : EnvMap) : Except ValidationFailure GcpDeployEnv :=
  if missingKeys env gcpRequiredKeys = [] then
    if gcpOtherIssue env = false then
      match validateOidcToken env with
      | some e => .error e
      | none => .ok (gcpParsedEnv env)
    else .error .schemaError
  else .error (.deployEnvError (missingKeys env gcpRequiredKeys) .gcp)

/-- `validateAzureEnv`, mirroring `validateGcpEnv`. -/
def validateAzureEnv (env : EnvMap) : Except ValidationFailure AzureDeployEnv :=
  if missingKeys env azureRequiredKeys = [] then
    if azureOtherIssue env = false then
      match validateOidcToken env with
      | some e => .error e
      | none => .ok (azureParsedEnv env)
    else .error .schemaError
  else .error (.deployEnvError (missingKeys env azureRequiredKeys) .azure)

/-- The `DeployEnv` union type. -/
inductive DeployEnv
  | gcpEnv (e : GcpDeployEnv)
  | azureEnv (e : AzureDeployEnv)
deriving DecidableEq, Repr

/-- `validateDeployEnv`: dispatch on the cloud. -/
def validateDeployEnv (env : EnvMap) (cloud : Cloud) :
    Except ValidationFailure DeployEnv :=
  match cloud with
  | .gcp => (validateGcpEnv env).map .gcpEnv
  | .azure => (validateAzureEnv env).map .azureEnv

/-- `formatMissingVarsError` applied to a `DeployEnvError`'s fields. -/
def formatMissingVarsError (missingVars : List (List Char)) (cloud : Cloud) :
    List Char :=
  let ciHint :=
    match cloud with
    | .gcp =>
      "Set these in: Repository Settings > Pipelines > Repository variables".toList
    | .azure =>
      "Set these in: Repository Settings > Secrets and variables > Actions".toList
  let bar := List.replicate 46 '='
  let cloudName :=
    match cloud with
    | .gcp => "GCP".toList
    | .azure => "AZURE".toList
  List.intercalate "\n".toList
    ([bar, "ERROR: Missing required ".toList ++ cloudName ++
        " environment variables:".toList, bar] ++
      missingVars.map (fun v => "  - ".toList ++ v) ++
      [[], ciHint])

theorem validateGcpEnv_missing (env : EnvMap)
    (h : missingKeys env gcpRequiredKeys ≠ []) :
    validateGcpEnv env =
      .error (.deployEnvError (missingKeys env gcpRequiredKeys) .gcp) := by
  unfold validateGcpEnv
  rw [if_neg h]

theorem validateAzureEnv_missing (env : EnvMap)
    (h : missingKeys env azureRequiredKeys ≠ []) :
    validateAzureEnv env =
      .error (.deployEnvError (missingKeys env azureRequiredKeys) .azure) := by
  unfold validateAzureEnv
  rw [if_neg h]

theorem validateGcpEnv_pass (env : EnvMap)
    (h1 : missingKeys env gcpRequiredKeys = [])
    (h2 : gcpOtherIssue env = false) :
    validateGcpEnv env =
      match validateOidcToken env with
      | some e => .error e
      | none => .ok (gcpParsedEnv env) := by
  unfold validateGcpEnv
  rw [if_pos h1, if_pos h2]

theorem validateAzureEnv_pass (env : EnvMap)
    (h1 : missingKeys env azureRequiredKeys = [])
    (h2 : azureOtherIssue env = false) :
    validateAzureEnv env =
      match validateOidcToken env with
      | some e => .error e
      | none => .ok (azureParsedEnv env) := by
  unfold validateAzureEnv
  rw [if_pos h1, if_pos h2]

theorem validateOidcToken_missing (env : EnvMap)
    (h1 : hasTruthy env "BITBUCKET_STEP_OIDC_TOKEN".toList = false)
    (h2 : hasTruthy env "ACTIONS_ID_TOKEN_REQUEST_TOKEN".toList = false) :
    validateOidcToken env = some (.deployEnvError [oidcCombined] .gcp) := by
  unfold validateOidcToken
  rw [if_pos ⟨h1, h2⟩]

theorem mem_missingKeys (env : EnvMap) (keys : List (List Char))
    (k : List Char) (hk : k ∈ keys) (h : env k = none) :
    k ∈ missingKeys env keys := by
  unfold missingKeys
  refine List.mem_filter.mpr ⟨hk, ?_⟩
  rw [h]
  rfl

/-- C3 (amended): every absent required key of either cloud is reported,
all at once, in a `DeployEnvError`; when the schema passes (all required
keys present and non-empty, email well-formed) and an OIDC token is
present, validation succeeds and fills the documented defaults.
Present-but-empty keys instead fail through the generic schema error. -/
theorem claim3_validate_env (env : EnvMap) :
    (missingKeys env gcpRequiredKeys ≠ [] →
      validateGcpEnv env =
        .error (.deployEnvError (missingKeys env gcpRequiredKeys) .gcp) ∧
      ∀ k ∈ gcpRequiredKeys, env k = none →
        k ∈ missingKeys env gcpRequiredKeys) ∧
    (missingKeys env azureRequiredKeys ≠ [] →
      validateAzureEnv env =
        .error (.deployEnvError (missingKeys env azureRequiredKeys) .azure) ∧
      ∀ k ∈ azureRequiredKeys, env k = none →
        k ∈ missingKeys env azureRequiredKeys) ∧
    (missingKeys env gcpRequiredKeys = [] → gcpOtherIssue env = false →
      validateOidcToken env = none →
      validateGcpEnv env = .ok (gcpParsedEnv env)) ∧
    (missingKeys env azureRequiredKeys = [] → azureOtherIssue env = false →
      validateOidcToken env = none →
      validateAzureEnv env = .ok (azureParsedEnv env)) ∧
    (env "WIF_POOL_ID".toList = none →
      (gcpParsedEnv env).WIF_POOL_ID = "cicd-deployments".toList) ∧
    (env "WIF_PROVIDER_ID".toList = none →
      (gcpParsedEnv env).WIF_PROVIDER_ID = "bitbucket".toList) ∧
    (env "AZURE_LOCATION".toList = none →
      (azureParsedEnv env).AZURE_LOCATION = "eastus".toList) := by
  refine ⟨fun h => ⟨validateGcpEnv_missing env h,
      fun k hk hn => mem_missingKeys env _ k hk hn⟩,
    fun h => ⟨validateAzureEnv_missing env h,
      fun k hk hn => mem_missingKeys env _ k hk hn⟩,
    fun h1 h2 h3 => ?_, fun h1 h2 h3 => ?_, fun h => ?_, fun h => ?_,
    fun h => ?_⟩
  · rw [validateGcpEnv_pass env h1 h2, h3]
  · rw [validateAzureEnv_pass env h1 h2, h3]
  · unfold gcpParsedEnv; rw [h]; rfl
  · unfold gcpParsedEnv; rw [h]; rfl
  · unfold azureParsedEnv; rw [h]; rfl

/-- A GCP environment with only one required key present. -/
def envOneKey : EnvMap := envOf [("GCP_PROJECT".toList, "p".toList)]

/-- C3 witness: the amended statement applied to an environment with
five absent required keys. -/
theorem claim3_witness :
    missingKeys envOneKey gcpRequiredKeys ≠ [] ∧
      validateGcpEnv envOneKey =
        .error (.deployEnvError (missingKeys envOneKey gcpRequiredKeys) .gcp) :=
  ⟨by decide, ((claim3_validate_env envOneKey).1 (by decide)).1⟩

/-- A GCP environment that is complete except that
`PULUMI_CONFIG_PASSPHRASE` is present but empty. -/
def envEmptyPassphrase : EnvMap := envOf [
  ("GCP_PROJECT".toList, "my-project".toList),
  ("GCP_PROJECT_NUMBER".toList, "123456789".toList),
  ("GCP_REGION".toList, "us-central1".toList),
  ("STATE_BUCKET".toList, "my-bucket".toList),
  ("SERVICE_ACCOUNT_EMAIL".toList, "sa@project.iam.gserviceaccount.com".toList),
  ("PULUMI_CONFIG_PASSPHRASE".toList, []),
  ("BITBUCKET_STEP_OIDC_TOKEN".toList, "tok".toList)]

/-- C3 counterexample: a required key that is present but empty makes
validation fail with the generic schema error, not a `DeployEnvError`
listing it, contradicting the claim's "absent or empty" clause. -/
theorem claim3_counterexample :
    validateGcpEnv envEmptyPassphrase = .error .schemaError ∧
      validateGcpEnv envEmptyPassphrase ≠
        .error (.deployEnvError ["PULUMI_CONFIG_PASSPHRASE".toList] .gcp) := by
  decide

/-- C7: for both cloud schemas, when the primary schema passes but
neither CI identity token is truthy, validation fails with the distinct
combined-token `DeployEnvError`; the token check runs only after the
schema, so an environment that is also missing a required key reports
the missing keys instead. -/
theorem claim7_token_check_after_schema (env : EnvMap) :
    (missingKeys env gcpRequiredKeys = [] → gcpOtherIssue env = false →
      hasTruthy env "BITBUCKET_STEP_OIDC_TOKEN".toList = false →
      hasTruthy env "ACTIONS_ID_TOKEN_REQUEST_TOKEN".toList = false →
      validateGcpEnv env = .error (.deployEnvError [oidcCombined] .gcp)) ∧
    (missingKeys env azureRequiredKeys = [] → azureOtherIssue env = false →
      hasTruthy env "BITBUCKET_STEP_OIDC_TOKEN".toList = false →
      hasTruthy env "ACTIONS_ID_TOKEN_REQUEST_TOKEN".toList = false →
      validateAzureEnv env = .error (.deployEnvError [oidcCombined] .gcp)) ∧
    (missingKeys env gcpRequiredKeys ≠ [] →
      validateGcpEnv env =
        .error (.deployEnvError (missingKeys env gcpRequiredKeys) .gcp)) ∧
    (missingKeys env azureRequiredKeys ≠ [] →
      validateAzureEnv env =
        .error (.deployEnvError (missingKeys env azureRequiredKeys) .azure)) := by
  refine ⟨fun h1 h2 h3 h4 => ?_, fun h1 h2 h3 h4 => ?_,
    validateGcpEnv_missing env, validateAzureEnv_missing env⟩
  · rw [validateGcpEnv_pass env h1 h2, validateOidcToken_missing env h3 h4]
  · rw [validateAzureEnv_pass env h1 h2, validateOidcToken_missing env h3 h4]

/-- A complete GCP environment with no CI identity token. -/
def envGcpNoToken : EnvMap := envOf [
  ("GCP_PROJECT".toList, "my-project".toList),
  ("GCP_PROJECT_NUMBER".toList, "123456789".toList),
  ("GCP_REGION".toList, "us-central1".toList),
  ("STATE_BUCKET".toList, "my-bucket".toList),
  ("SERVICE_ACCOUNT_EMAIL".toList, "sa@project.iam.gserviceaccount.com".toList),
  ("PULUMI_CONFIG_PASSPHRASE".toList, "secret".toList)]

/-- C7 witness: the schema passes, both tokens are absent, and the
distinct combined-token failure is produced. -/
theorem claim7_witness :
    missingKeys envGcpNoToken gcpRequiredKeys = [] ∧
      gcpOtherIssue envGcpNoToken = false ∧
      validateGcpEnv envGcpNoToken =
        .error (.deployEnvError [oidcCombined] .gcp) :=
  ⟨by decide, by decide,
    (claim7_token_check_after_schema envGcpNoToken).1 (by decide) (by decide)
      (by decide) (by decide)⟩

/-- C10: when the Azure schema passes but neither CI identity token is
truthy, the thrown `DeployEnvError` carries cloud `"gcp"` and the single
combined missing-variables entry, and the formatted operator message is
labeled with the GCP cloud name and the GCP (Bitbucket Pipelines) CI
hint, even though the Azure cloud was being validated. -/
theorem claim10_azure_token_error_gcp_labeled (env : EnvMap)
    (h1 : missingKeys env azureRequiredKeys = [])
    (h2 : azureOtherIssue env = false)
    (h3 : hasTruthy env "BITBUCKET_STEP_OIDC_TOKEN".toList = false)
    (h4 : hasTruthy env "ACTIONS_ID_TOKEN_REQUEST_TOKEN".toList = false) :
    validateAzureEnv env = .error (.deployEnvError [oidcCombined] .gcp) ∧
      formatMissingVarsError [oidcCombined] .gcp =
        List.replicate 46 '=' ++ "\n".toList ++
        "ERROR: Missing required GCP environment variables:\n".toList ++
        List.replicate 46 '=' ++ "\n".toList ++
        "  - BITBUCKET_STEP_OIDC_TOKEN or ACTIONS_ID_TOKEN_REQUEST_TOKEN\n".toList ++
        "\n".toList ++
        "Set these in: Repository Settings > Pipelines > Repository variables".toList := by
  constructor
  · rw [validateAzureEnv_pass env h1 h2, validateOidcToken_missing env h3 h4]
  · decide

/-- A complete Azure environment with no CI identity token. -/
def envAzureNoToken : EnvMap := envOf [
  ("AZURE_CLIENT_ID".toList, "client".toList),
  ("AZURE_TENANT_ID".toList, "tenant".toList),
  ("AZURE_SUBSCRIPTION_ID".toList, "sub".toList),
  ("AZURE_RESOURCE_GROUP".toList, "rg".toList),
  ("STATE_STORAGE_ACCOUNT".toList, "storage".toList),
  ("PULUMI_CONFIG_PASSPHRASE".toList, "secret".toList)]

/-- C10 witness: concrete Azure environment whose token failure is
labeled GCP. -/
theorem claim10_witness :
    missingKeys envAzureNoToken azureRequiredKeys = [] ∧
      validateAzureEnv envAzureNoToken =
        .error (.deployEnvError [oidcCombined] .gcp) :=
  ⟨by decide, (claim10_azure_token_error_gcp_labeled envAzureNoToken
    (by decide) (by decide) (by decide) (by decide)).1⟩

/-! ## Health verifier (`healthCheck`, cli/src/lib/health.ts) -/

/-- The observable outcome of one fetch attempt: a response with
`response.ok`, a response with a non-success status, or an exception
(network failure, or the per-attempt timeout firing the abort signal —
both surface through the same catch). -/
inductive FetchOutcome
  | ok
  | notOk (status : Nat)
  | err (msg : List Char)
deriving DecidableEq, Repr

/-- The fields of `HealthCheckError`. -/
structure HealthCheckError where
  url : List Char
  attempts : Nat
  lastError : Option (List Char)
deriving DecidableEq, Repr

/-- The externally observable events of the retry loop. -/
inductive HCEvent
  | attempt (i : Nat)
  | sleep (ms : Nat)
deriving DecidableEq, Repr

/-- The `lastError` string recorded for an unsuccessful attempt. -/
def errMsgOf : FetchOutcome → List Char
  | .ok => []
  | .notOk status => "HTTP ".toList ++ (toString status).toList
  | .err msg => msg

/-- The retry loop of `healthCheck`, with `remaining` attempts left
(this one included) and the current 1-based `attempt` index; a fetch
oracle gives each attempt's outcome.  Structural recursion on
`remaining`, so the call with `remaining = maxAttempts`, `attempt = 1`
models the `for` loop exactly. -/
def hcLoop (oracle : Nat → FetchOutcome) (url : List Char)
    (maxAttempts delayMs : Nat) :
    Nat → Nat → Option (List Char) → Except HealthCheckError Bool × List HCEvent
  | 0, _, lastError => (.error ⟨url, maxAttempts, lastError⟩, [])
  | r + 1, attempt, lastError =>
    match oracle attempt with
    | .ok => (.ok true, [.attempt attempt])
    | outcome =>
      let e := some (errMsgOf outcome)
      if 0 < r then
        let res := hcLoop oracle url maxAttempts delayMs r (attempt + 1) e
        (res.1, .attempt attempt :: .sleep delayMs :: res.2)
      else
        let res := hcLoop oracle url maxAttempts delayMs r (attempt + 1) e
        (res.1, .attempt attempt :: res.2)

/-- `healthCheck({url, maxAttempts, delayMs})`: result plus the trace
of attempts and sleeps. -/
def healthCheck (oracle : Nat → FetchOutcome) (url : List Char)
    (maxAttempts delayMs : Nat) :
    Except HealthCheckError Bool × List HCEvent :=
  hcLoop oracle url maxAttempts delayMs maxAttempts 1 none

/-- `n` failing attempts starting at index `i`, each followed by the
fixed-delay sleep. -/
def retryEvents (delayMs i : Nat) : Nat → List HCEvent
  | 0 => []
  | n + 1 => .attempt i :: .sleep delayMs :: retryEvents delayMs (i + 1) n

theorem hcLoop_success (oracle : Nat → FetchOutcome) (url : List Char)
    (maxAttempts delayMs : Nat) :
    ∀ (r a : Nat) (le : Option (List Char)) (k : Nat), a ≤ k → k < a + r →
      oracle k = .ok → (∀ j, a ≤ j → j < k → oracle j ≠ .ok) →
      hcLoop oracle url maxAttempts delayMs r a le =
        (.ok true, retryEvents delayMs a (k - a) ++ [.attempt k])
  | 0, a, le, k, hak, hkr, _, _ => absurd hkr (by omega)
  | r + 1, a, le, k, hak, hkr, hk, hprev => by
    rcases Nat.eq_or_lt_of_le hak with rfl | hlt
    · simp only [hcLoop, hk, Nat.sub_self, retryEvents, List.nil_append]
    · have hne : oracle a ≠ .ok := hprev a le_rfl hlt
      have hr : 0 < r := by omega
      rcases ho : oracle a with _ | s | m
      · exact absurd ho hne
      · simp only [hcLoop, ho, if_pos hr]
        rw [hcLoop_success oracle url maxAttempts delayMs r (a + 1)
          (some (errMsgOf (.notOk s))) k (by omega) (by omega) hk
          (fun j h1 h2 => hprev j (by omega) h2)]
        have : k - a = (k - (a + 1)) + 1 := by omega
        rw [this]
        simp [retryEvents]
      · simp only [hcLoop, ho, if_pos hr]
        rw [hcLoop_success oracle url maxAttempts delayMs r (a + 1)
          (some (errMsgOf (.err m))) k (by omega) (by omega) hk
          (fun j h1 h2 => hprev j (by omega) h2)]
        have : k - a = (k - (a + 1)) + 1 := by omega
        rw [this]
        simp [retryEvents]

theorem hcLoop_allFail (oracle : Nat → FetchOutcome) (url : List Char)
    (maxAttempts delayMs : Nat) :
    ∀ (r a : Nat) (le : Option (List Char)), 0 < r →
      (∀ j, a ≤ j → j < a + r → oracle j ≠ .ok) →
      hcLoop oracle url maxAttempts delayMs r a le =
        (.error ⟨url, maxAttempts, some (errMsgOf (oracle (a + r - 1)))⟩,
          retryEvents delayMs a (r - 1) ++ [.attempt (a + r - 1)])
  | 0, a, le, hr, _ => absurd hr (by omega)
  | 1, a, le, _, hfail => by
    have hne : oracle a ≠ .ok := hfail a le_rfl (by omega)
    rcases ho : oracle a with _ | s | m
    · exact absurd ho hne
    · simp [hcLoop, ho, retryEvents]
    · simp [hcLoop, ho, retryEvents]
  | r + 2, a, le, _, hfail => by
    have hne : oracle a ≠ .ok := hfail a le_rfl (by omega)
    have hr : 0 < r + 1 := by omega
    have harith : a + (r + 2) - 1 = (a + 1) + (r + 1) - 1 := by omega
    rcases ho : oracle a with _ | s | m
    · exact absurd ho hne
    · rw [hcLoop]
      simp only [ho, if_pos hr]
      rw [hcLoop_allFail oracle url maxAttempts delayMs (r + 1) (a + 1)
        (some (errMsgOf (.notOk s))) (by omega)
        (fun j h1 h2 => hfail j (by omega) (by omega))]
      rw [show r + 2 - 1 = (r + 1 - 1) + 1 by omega]
      simp [retryEvents, harith]
    · rw [hcLoop]
      simp only [ho, if_pos hr]
      rw [hcLoop_allFail oracle url maxAttempts delayMs (r + 1) (a + 1)
        (some (errMsgOf (.err m))) (by omega)
        (fun j h1 h2 => hfail j (by omega) (by omega))]
      rw [show r + 2 - 1 = (r + 1 - 1) + 1 by omega]
      simp [retryEvents, harith]

/-- An endpoint that fails on attempts 1 and 2, then succeeds. -/
def failTwiceOracle : Nat → FetchOutcome
  | 1 => .err "network".toList
  | 2 => .err "network".toList
  | _ => .ok

/-- An endpoint that always fails. -/
def alwaysFailOracle : Nat → FetchOutcome := fun _ => .err "network".toList

/-- A concrete health-check URL. -/
def healthUrl0 : List Char := "https://app.run.app/health".toList

/-- Number of fetch attempts in a trace. -/
def numAttempts (t : List HCEvent) : Nat :=
  (t.filter fun e => match e with | .attempt _ => true | .sleep _ => false).length

/-- C4: `healthCheck` succeeds on the first attempt whose response is
successful, performing no further attempts; if all `maxAttempts`
attempts fail it raises `HealthCheckError` with the url, `attempts =
maxAttempts` and the last observed error; the fixed delay is slept
after every unsuccessful non-final attempt and never after the last.
Concretely: fail-twice-then-succeed with `maxAttempts = 5` resolves
after exactly 3 attempts, and an always-failing endpoint with
`maxAttempts = 3` raises with `attempts = 3`. -/
theorem claim4_healthCheck (oracle : Nat → FetchOutcome) (url : List Char)
    (maxAttempts delayMs k : Nat) :
    (1 ≤ k → k ≤ maxAttempts → oracle k = .ok →
      (∀ j < k, 1 ≤ j → oracle j ≠ .ok) →
      healthCheck oracle url maxAttempts delayMs =
        (.ok true, retryEvents delayMs 1 (k - 1) ++ [.attempt k])) ∧
    (1 ≤ maxAttempts → (∀ j ≤ maxAttempts, 1 ≤ j → oracle j ≠ .ok) →
      healthCheck oracle url maxAttempts delayMs =
        (.error ⟨url, maxAttempts, some (errMsgOf (oracle maxAttempts))⟩,
          retryEvents delayMs 1 (maxAttempts - 1) ++ [.attempt maxAttempts])) ∧
    (healthCheck failTwiceOracle healthUrl0 5 10000).1 = .ok true ∧
    numAttempts (healthCheck failTwiceOracle healthUrl0 5 10000).2 = 3 ∧
    healthCheck alwaysFailOracle healthUrl0 3 10000 =
      (.error ⟨healthUrl0, 3, some "network".toList⟩,
        [.attempt 1, .sleep 10000, .attempt 2, .sleep 10000, .attempt 3]) := by
  refine ⟨fun h1 h2 hk hprev => ?_, fun h1 hfail => ?_, by decide, by decide,
    by decide⟩
  · unfold healthCheck
    exact hcLoop_success oracle url maxAttempts delayMs maxAttempts 1 none k
      h1 (by omega) hk (fun j hj1 hj2 => hprev j hj2 hj1)
  · unfold healthCheck
    have := hcLoop_allFail oracle url maxAttempts delayMs maxAttempts 1 none
      (by omega) (fun j hj1 hj2 => hfail j (by omega) hj1)
    rwa [show 1 + maxAttempts - 1 = maxAttempts by omega] at this

/-- C4 witness: the success clause applied to the
fail-twice-then-succeed endpoint with `maxAttempts = 5`. -/
theorem claim4_witness :
    failTwiceOracle 3 = .ok ∧
      healthCheck failTwiceOracle healthUrl0 5 10000 =
        (.ok true, retryEvents 10000 1 2 ++ [.attempt 3]) :=
  ⟨rfl, (claim4_healthCheck failTwiceOracle healthUrl0 5 10000 3).1
    (by decide) (by decide) rfl (by decide)⟩

/-! ## Container build/push controller (cli/src/lib/docker.ts) -/

/-- Outcome of one `execa` subprocess invocation that either resolves
or rejects with an error message. -/
inductive ExecResult
  | ok
  | fail (msg : List Char)
deriving DecidableEq, Repr

/-- `dockerPull(imageName)`: try/catch around `docker pull` — `true` on
success, `false` on any failure, never rethrowing. -/
def dockerPull (pullExec : ExecResult) : Bool :=
  match pullExec with
  | .ok => true
  | .fail _ => false

/-- The parameters of a `dockerBuild` call. -/
structure DockerBuildParams where
  imageName : List Char
  context : List Char
  cacheFrom : Option (List Char)
  dockerfile : Option (List Char)
  buildArgs : Option (List (List Char × List Char))
deriving DecidableEq, Repr

/-- The argv assembled by `dockerBuild`. -/
def dockerBuildArgs (p : DockerBuildParams) : List (List Char) :=
  ["build".toList, "--platform".toList, "linux/amd64".toList,
   "--build-arg".toList, "BUILDKIT_INLINE_CACHE=1".toList] ++
  (match p.buildArgs with
   | some l => (l.map (fun kv =>
      ["--build-arg".toList, kv.1 ++ "=".toList ++ kv.2])).flatten
   | none => []) ++
  (match p.cacheFrom with
   | some c => ["--cache-from".toList, c]
   | none => []) ++
  (match p.dockerfile with
   | some f => ["-f".toList, f]
   | none => []) ++
  ["-t".toList, p.imageName, p.context]

/-! ## Deploy pipeline (cli/src/commands/deploy.ts) -/

/-- The CLI options record (`private` is spelled `isPrivate`; JavaScript
truthiness of the original is preserved by the `Bool`). -/
structure DeployOptions where
  app : List Char
  branch : List Char
  context : Option (List Char)
  memory : Option (List Char)
  cpu : Option (List Char)
  minInstances : Option Int
  maxInstances : Option Int
  runtimeSa : Option (List Char)
  port : Option Int
  isPrivate : Bool
  buildArgsFromEnv : Option (List Char)
  customDomain : Option (List Char)
deriving DecidableEq, Repr

/-- JavaScript truthiness of an optional string. -/
def jsTruthy : Option (List Char) → Bool
  | some v => !v.isEmpty
  | none => false

/-- `a || b` on an optional string and a string default. -/
def orTruthy (a : Option (List Char)) (b : List Char) : List Char :=
  match a with
  | some v => if v.isEmpty then b else v
  | none => b

/-- `a || b` on two optional strings. -/
def truthyOr (a b : Option (List Char)) : Option (List Char) :=
  match a with
  | some v => if v.isEmpty then b else some v
  | none => b

/-- Whitespace for `trim` / `parseInt`. -/
def jsWS (c : Char) : Bool := c == ' ' || c == '\t' || c == '\n' || c == '\r'

/-- `String.prototype.trim`. -/
def jsTrim (s : List Char) : List Char :=
  ((s.dropWhile jsWS).reverse.dropWhile jsWS).reverse

/-- `parseInt(s)`: optional sign then a nonempty decimal-digit prefix;
`none` models `NaN`. -/
def jsParseInt (s : List Char) : Option Int :=
  let t := s.dropWhile jsWS
  let core :=
    match t with
    | '-' :: rest => (rest, true)
    | '+' :: rest => (rest, false)
    | _ => (t, false)
  let digits := core.1.takeWhile isDigitChar
  if digits.isEmpty then none
  else
    let v : Int := digits.foldl (fun acc c => 10 * acc + ((c.toNat : Int) - 48)) 0
    some (if core.2 then -v else v)

/-- `String(n)` for a number that may be `NaN`. -/
def jsNumToString : Option Int → List Char
  | none => "NaN".toList
  | some n => (toString n).toList

/-- `String(b)` for a boolean. -/
def jsBoolToString (b : Bool) : List Char :=
  if b then "true".toList else "false".toList

/-- `options.x ?? (process.env.K ? parseInt(process.env.K) : d)`. -/
def resolveNumeric (opt : Option Int) (procEnv : EnvMap) (k : List Char)
    (d : Int) : Option Int :=
  match opt with
  | some n => some n
  | none =>
    match procEnv k with
    | some v => if v.isEmpty then some d else jsParseInt v
    | none => some d

/-- Object upsert for the build-args record (insertion order kept,
later assignments overwrite in place). -/
def upsert (m : List (List Char × List Char)) (k v : List Char) :
    List (List Char × List Char) :=
  if m.any (fun p => p.1 == k) then
    m.map (fun p => if p.1 == k then (k, v) else p)
  else m ++ [(k, v)]

/-- The build-args parsing loop: split `--build-args-from-env` on
commas, trim each name, and forward those with truthy values. -/
def parseBuildArgs (procEnv : EnvMap) (spec : Option (List Char)) :
    List (List Char × List Char) :=
  match spec with
  | none => []
  | some s =>
    if s.isEmpty then []
    else
      (s.splitOn ',').foldl (fun m varName =>
        let trimmed := jsTrim varName
        match procEnv trimmed with
        | some v => if v.isEmpty then m else upsert m trimmed v
        | none => m) []

/-- Everything `deployGcp` passes to its external collaborators, as a
function of the options, the validated environment, the raw process
environment, the working directory, and the oracle results (registry
URL read from the shared infrastructure stack, the pull outcome, the
deployed URL read back from the app stack). -/
structure GcpDeployPlan where
  branchTag : List Char
  oidcToken : Option (List Char)
  registry : List Char
  imageName : List Char
  pullImage : List Char
  build : DockerBuildParams
  pushImage : List Char
  stackName : List Char
  config : List (List Char × List Char)
  healthUrl : List Char
  resultFile : List Char
deriving DecidableEq, Repr

def deployGcpPlan (options : DeployOptions) (env : GcpDeployEnv)
    (procEnv : EnvMap) (cwd : List Char) (registryUrl : List Char)
    (pulled : Bool) (resultUrl : List Char) : GcpDeployPlan :=
  let context := options.context.getD cwd
  let memory := orTruthy options.memory
    (orTruthy (procEnv "MEMORY_LIMIT".toList) "512Mi".toList)
  let cpu := orTruthy options.cpu
    (orTruthy (procEnv "CPU_LIMIT".toList) "1".toList)
  let minInstances := resolveNumeric options.minInstances procEnv
    "MIN_INSTANCES".toList 0
  let maxInstances := resolveNumeric options.maxInstances procEnv
    "MAX_INSTANCES".toList 100
  let runtimeSa := truthyOr options.runtimeSa
    (procEnv "RUNTIME_SERVICE_ACCOUNT".toList)
  let port := resolveNumeric options.port procEnv "CONTAINER_PORT".toList 8080
  let allowUnauthenticated :=
    if options.isPrivate then false
    else !(procEnv "ALLOW_UNAUTHENTICATED".toList == some "false".toList)
  let customDomain := truthyOr options.customDomain
    (procEnv "CUSTOM_DOMAIN".toList)
  let buildArgs := parseBuildArgs procEnv options.buildArgsFromEnv
  let branchTag := normalizeBranch options.branch 63
  let imageName := registryUrl ++ "/".toList ++ options.app ++ ":".toList
    ++ branchTag
  { branchTag := branchTag
    oidcToken := truthyOr env.BITBUCKET_STEP_OIDC_TOKEN
      (procEnv "ACTIONS_ID_TOKEN_REQUEST_TOKEN".toList)
    registry := env.GCP_REGION ++ "-docker.pkg.dev".toList
    imageName := imageName
    pullImage := imageName
    build :=
      { imageName := imageName
        context := context
        cacheFrom := if pulled then some imageName else none
        dockerfile := none
        buildArgs := if buildArgs.isEmpty then none else some buildArgs }
    pushImage := imageName
    stackName := "organization/app/".toList ++ options.app ++ "-".toList
      ++ branchTag
    config :=
      [("gcp:project".toList, env.GCP_PROJECT),
       ("appName".toList, options.app),
       ("imageTag".toList, branchTag),
       ("infraStackRef".toList, "organization/infrastructure/prod".toList),
       ("region".toList, env.GCP_REGION),
       ("memoryLimit".toList, memory),
       ("cpuLimit".toList, cpu),
       ("minInstances".toList, jsNumToString minInstances),
       ("maxInstances".toList, jsNumToString maxInstances),
       ("containerPort".toList, jsNumToString port),
       ("allowUnauthenticated".toList, jsBoolToString allowUnauthenticated)] ++
      (if jsTruthy runtimeSa then
        [("runtimeServiceAccountEmail".toList, runtimeSa.getD [])] else []) ++
      (if jsTruthy customDomain then
        [("customDomain".toList, customDomain.getD [])] else [])
    healthUrl := resultUrl ++ "/health".toList
    resultFile := "/tmp/service-url.txt".toList }

/-- The Azure analogue of `GcpDeployPlan` (no explicit credential
exchange; registry login uses the ACR login server). -/
structure AzureDeployPlan where
  branchTag : List Char
  registry : List Char
  imageName : List Char
  pullImage : List Char
  build : DockerBuildParams
  pushImage : List Char
  stackName : List Char
  config : List (List Char × List Char)
  healthUrl : List Char
  resultFile : List Char
deriving DecidableEq, Repr

def deployAzurePlan (options : DeployOptions) (env : AzureDeployEnv)
    (procEnv : EnvMap) (cwd : List Char) (registryUrl : List Char)
    (pulled : Bool) (resultUrl : List Char) : AzureDeployPlan :=
  let context := options.context.getD cwd
  let memory := orTruthy options.memory
    (orTruthy (procEnv "MEMORY_LIMIT".toList) "2Gi".toList)
  let cpu := orTruthy options.cpu
    (orTruthy (procEnv "CPU_LIMIT".toList) "1".toList)
  let port := resolveNumeric options.port procEnv "CONTAINER_PORT".toList 8080
  let buildArgs := parseBuildArgs procEnv options.buildArgsFromEnv
  let branchTag := normalizeBranch options.branch 32
  let imageName := registryUrl ++ "/".toList ++ options.app ++ ":".toList
    ++ branchTag
  { branchTag := branchTag
    registry := registryUrl
    imageName := imageName
    pullImage := imageName
    build :=
      { imageName := imageName
        context := context
        cacheFrom := if pulled then some imageName else none
        dockerfile := none
        buildArgs := if buildArgs.isEmpty then none else some buildArgs }
    pushImage := imageName
    stackName := "organization/app/".toList ++ options.app ++ "-".toList
      ++ branchTag
    config :=
      [("azure-native:location".toList, env.AZURE_LOCATION),
       ("appName".toList, options.app),
       ("imageTag".toList, branchTag),
       ("infraStackRef".toList, "organization/infrastructure/prod".toList),
       ("cpuLimit".toList, cpu),
       ("memoryLimit".toList, memory),
       ("containerPort".toList, jsNumToString port)]
    healthUrl := resultUrl ++ "/health".toList
    resultFile := "/tmp/service-url.txt".toList }

/-- C2: both deploy paths compute the stack identifier as
`organization/app/<app>-<tag>` and the image reference as
`<registryUrl>/<app>:<tag>` with `tag = normalizeBranch(branch, limit)`
(limit 63 on GCP, 32 on Azure); the identifiers depend only on the
(app, branch) pair (plus the registry endpoint for the image), so two
runs with the same triple coincide; and app `demo` with branch
`release/v1.2.3` on GCP yields the stack identifier ending in
`demo-release-v1-2-3` and an image reference ending in
`:release-v1-2-3`. -/
theorem claim2_stack_and_image (o1 o2 : DeployOptions) (e1 e2 : GcpDeployEnv)
    (ae1 ae2 : AzureDeployEnv) (p1 p2 : EnvMap) (c1 c2 r1 r2 u1 u2 : List Char)
    (b1 b2 : Bool) :
    ((deployGcpPlan o1 e1 p1 c1 r1 b1 u1).stackName =
        "organization/app/".toList ++ o1.app ++ "-".toList ++
          normalizeBranch o1.branch 63 ∧
      (deployGcpPlan o1 e1 p1 c1 r1 b1 u1).imageName =
        r1 ++ "/".toList ++ o1.app ++ ":".toList ++
          normalizeBranch o1.branch 63) ∧
    ((deployAzurePlan o1 ae1 p1 c1 r1 b1 u1).stackName =
        "organization/app/".toList ++ o1.app ++ "-".toList ++
          normalizeBranch o1.branch 32 ∧
      (deployAzurePlan o1 ae1 p1 c1 r1 b1 u1).imageName =
        r1 ++ "/".toList ++ o1.app ++ ":".toList ++
          normalizeBranch o1.branch 32) ∧
    (o1.app = o2.app → o1.branch = o2.branch →
      (deployGcpPlan o1 e1 p1 c1 r1 b1 u1).stackName =
          (deployGcpPlan o2 e2 p2 c2 r2 b2 u2).stackName ∧
        (r1 = r2 →
          (deployGcpPlan o1 e1 p1 c1 r1 b1 u1).imageName =
            (deployGcpPlan o2 e2 p2 c2 r2 b2 u2).imageName) ∧
        (deployAzurePlan o1 ae1 p1 c1 r1 b1 u1).stackName =
          (deployAzurePlan o2 ae2 p2 c2 r2 b2 u2).stackName) ∧
    (o1.app = "demo".toList → o1.branch = "release/v1.2.3".toList →
      (deployGcpPlan o1 e1 p1 c1 r1 b1 u1).stackName =
          "organization/app/demo-release-v1-2-3".toList ∧
        (deployGcpPlan o1 e1 p1 c1 r1 b1 u1).imageName =
          r1 ++ "/demo:release-v1-2-3".toList) := by
  have hg : ∀ (o : DeployOptions) (e : GcpDeployEnv) (p : EnvMap)
      (c r u : List Char) (b : Bool),
      (deployGcpPlan o e p c r b u).stackName =
        "organization/app/".toList ++ o.app ++ "-".toList ++
          normalizeBranch o.branch 63 ∧
      (deployGcpPlan o e p c r b u).imageName =
        r ++ "/".toList ++ o.app ++ ":".toList ++
          normalizeBranch o.branch 63 := by
    intro o e p c r u b
    exact ⟨rfl, rfl⟩
  have ha : ∀ (o : DeployOptions) (e : AzureDeployEnv) (p : EnvMap)
      (c r u : List Char) (b : Bool),
      (deployAzurePlan o e p c r b u).stackName =
        "organization/app/".toList ++ o.app ++ "-".toList ++
          normalizeBranch o.branch 32 ∧
      (deployAzurePlan o e p c r b u).imageName =
        r ++ "/".toList ++ o.app ++ ":".toList ++
          normalizeBranch o.branch 32 := by
    intro o e p c r u b
    exact ⟨rfl, rfl⟩
  refine ⟨hg o1 e1 p1 c1 r1 u1 b1, ha o1 ae1 p1 c1 r1 u1 b1,
    fun happ hbr => ?_, fun happ hbr => ?_⟩
  · refine ⟨?_, fun hr => ?_, ?_⟩
    · rw [(hg o1 e1 p1 c1 r1 u1 b1).1, (hg o2 e2 p2 c2 r2 u2 b2).1,
        happ, hbr]
    · rw [(hg o1 e1 p1 c1 r1 u1 b1).2, (hg o2 e2 p2 c2 r2 u2 b2).2,
        happ, hbr, hr]
    · rw [(ha o1 ae1 p1 c1 r1 u1 b1).1, (ha o2 ae2 p2 c2 r2 u2 b2).1,
        happ, hbr]
  · constructor
    · rw [(hg o1 e1 p1 c1 r1 u1 b1).1, happ, hbr]
      decide
    · rw [(hg o1 e1 p1 c1 r1 u1 b1).2, happ, hbr]
      have : normalizeBranch "release/v1.2.3".toList 63 =
          "release-v1-2-3".toList := by decide
      rw [this]
      simp [List.append_assoc]

/-- Concrete inputs for the C2 end-to-end scenario. -/
def demoOptions : DeployOptions where
  app := "demo".toList
  branch := "release/v1.2.3".toList
  context := none
  memory := none
  cpu := none
  minInstances := none
  maxInstances := none
  runtimeSa := none
  port := none
  isPrivate := false
  buildArgsFromEnv := none
  customDomain := none

/-- C2 witness: the demo scenario instantiated with a concrete
registry endpoint. -/
theorem claim2_witness :
    demoOptions.app = "demo".toList ∧
      demoOptions.branch = "release/v1.2.3".toList ∧
      (deployGcpPlan demoOptions (gcpParsedEnv envGcpNoToken) (envOf [])
          "/work".toList "us-central1-docker.pkg.dev/my-project/containers".toList
          false "https://demo.run.app".toList).stackName =
        "organization/app/demo-release-v1-2-3".toList ∧
      (deployGcpPlan demoOptions (gcpParsedEnv envGcpNoToken) (envOf [])
          "/work".toList "us-central1-docker.pkg.dev/my-project/containers".toList
          false "https://demo.run.app".toList).imageName =
        "us-central1-docker.pkg.dev/my-project/containers".toList ++
          "/demo:release-v1-2-3".toList :=
  ⟨rfl, rfl,
    ((claim2_stack_and_image demoOptions demoOptions
      (gcpParsedEnv envGcpNoToken) (gcpParsedEnv envGcpNoToken)
      (azureParsedEnv envAzureNoToken) (azureParsedEnv envAzureNoToken)
      (envOf []) (envOf []) "/work".toList "/work".toList
      "us-central1-docker.pkg.dev/my-project/containers".toList
      "us-central1-docker.pkg.dev/my-project/containers".toList
      "https://demo.run.app".toList "https://demo.run.app".toList
      false false).2.2.2 rfl rfl).1,
    ((claim2_stack_and_image demoOptions demoOptions
      (gcpParsedEnv envGcpNoToken) (gcpParsedEnv envGcpNoToken)
      (azureParsedEnv envAzureNoToken) (azureParsedEnv envAzureNoToken)
      (envOf []) (envOf []) "/work".toList "/work".toList
      "us-central1-docker.pkg.dev/my-project/containers".toList
      "us-central1-docker.pkg.dev/my-project/containers".toList
      "https://demo.run.app".toList "https://demo.run.app".toList
      false false).2.2.2 rfl rfl).2⟩

/-- C5: `dockerPull` returns `true` exactly on a successful pull and
`false` on any failure without propagating it (it is total on the
subprocess outcome), and in both deploy paths the subsequent
`dockerBuild` receives `cacheFrom` equal to the image reference exactly
when the pull returned `true`, and no `cacheFrom` otherwise. -/
theorem claim5_pull_gates_cache (e : ExecResult) (options : DeployOptions)
    (env : GcpDeployEnv) (aenv : AzureDeployEnv) (procEnv : EnvMap)
    (cwd registryUrl resultUrl : List Char) :
    (dockerPull e = true ↔ e = .ok) ∧
    (∀ m, dockerPull (.fail m) = false) ∧
    ((deployGcpPlan options env procEnv cwd registryUrl (dockerPull e)
        resultUrl).build.cacheFrom =
      if dockerPull e = true then
        some ((deployGcpPlan options env procEnv cwd registryUrl (dockerPull e)
          resultUrl).imageName)
      else none) ∧
    ((deployAzurePlan options aenv procEnv cwd registryUrl (dockerPull e)
        resultUrl).build.cacheFrom =
      if dockerPull e = true then
        some ((deployAzurePlan options aenv procEnv cwd registryUrl
          (dockerPull e) resultUrl).imageName)
      else none) := by
  refine ⟨⟨fun h => ?_, fun h => by rw [h]; rfl⟩, fun m => rfl, ?_, ?_⟩
  · cases e with
    | ok => rfl
    | fail m => exact absurd h (by simp [dockerPull])
  · cases hp : dockerPull e <;> simp [deployGcpPlan, hp]
  · cases hp : dockerPull e <;> simp [deployAzurePlan, hp]

/-! ## Infrastructure orchestrator: `destroyApp` (cli/src/lib/pulumi.ts) -/

/-- The subprocess invocations `destroyApp` can issue. -/
inductive DestroyEvent
  | installDeps
  | login (backendUrl : List Char)
  | select (stackName : List Char)
  | configSet (key value : List Char)
  | destroy
  | stackRm
deriving DecidableEq, Repr

/-- Outcomes of the external processes `destroyApp` runs: `npm ci` and
`pulumi login` reject on failure; `pulumi stack select` is run with
`reject: false` and only reports an exit code; the config-set, destroy
and stack-rm invocations reject on failure. -/
structure DestroyWorld where
  installExec : ExecResult
  loginExec : ExecResult
  selectExitCode : Int
  configSetExec : ExecResult
  destroyExec : ExecResult
  rmExec : ExecResult
deriving DecidableEq, Repr

/-- The Pulumi backend URL (`pulumiLogin`). -/
def pulumiBackendUrl (stateBucket : List Char) (azure : Bool) : List Char :=
  if azure then "azblob://state?storage_account=".toList ++ stateBucket
  else "gs://".toList ++ stateBucket

/-- `destroyApp({stateBucket, stackName, workDir, projectId, azure})`:
install deps, log into the backend, try to select the stack (returning
`false` if that fails), set `gcp:project` when destroying a GCP stack
with a truthy `projectId`, destroy all resources, remove the stack
record, and return `true`; failures of every step except the selection
propagate. -/
def destroyApp (w : DestroyWorld) (stateBucket stackName : List Char)
    (projectId : Option (List Char)) (azure : Bool) :
    Except (List Char) Bool × List DestroyEvent :=
  match w.installExec with
  | .fail m => (.error m, [.installDeps])
  | .ok =>
    match w.loginExec with
    | .fail m => (.error m, [.installDeps, .login (pulumiBackendUrl stateBucket azure)])
    | .ok =>
      let t0 : List DestroyEvent :=
        [.installDeps, .login (pulumiBackendUrl stateBucket azure),
         .select stackName]
      if w.selectExitCode ≠ 0 then (.ok false, t0)
      else if !azure && jsTruthy projectId then
        match w.configSetExec with
        | .fail m =>
          (.error m, t0 ++ [.configSet "gcp:project".toList (projectId.getD [])])
        | .ok =>
          let t1 := t0 ++ [.configSet "gcp:project".toList (projectId.getD [])]
          match w.destroyExec with
          | .fail m => (.error m, t1 ++ [.destroy])
          | .ok =>
            match w.rmExec with
            | .fail m => (.error m, t1 ++ [.destroy, .stackRm])
            | .ok => (.ok true, t1 ++ [.destroy, .stackRm])
      else
        match w.destroyExec with
        | .fail m => (.error m, t0 ++ [.destroy])
        | .ok =>
          match w.rmExec with
          | .fail m => (.error m, t0 ++ [.destroy, .stackRm])
          | .ok => (.ok true, t0 ++ [.destroy, .stackRm])

/-- C6: when stack selection fails (the stack does not exist),
`destroyApp` returns `false` without raising and issues no config-set,
destroy or stack-removal invocation; when selection succeeds it sets
the cloud-required extra config (`gcp:project`, for GCP with a truthy
project id), destroys all resources, removes the stack record and
returns `true`; failures of the config-set, destroy or removal steps
propagate as errors. -/
theorem claim6_destroyApp (w : DestroyWorld) (stateBucket stackName : List Char)
    (projectId : Option (List Char)) (azure : Bool)
    (hin : w.installExec = .ok) (hlog : w.loginExec = .ok) :
    (w.selectExitCode ≠ 0 →
      destroyApp w stateBucket stackName projectId azure =
        (.ok false,
          [.installDeps, .login (pulumiBackendUrl stateBucket azure),
           .select stackName]) ∧
      DestroyEvent.destroy ∉
        (destroyApp w stateBucket stackName projectId azure).2 ∧
      DestroyEvent.stackRm ∉
        (destroyApp w stateBucket stackName projectId azure).2 ∧
      ∀ k v, DestroyEvent.configSet k v ∉
        (destroyApp w stateBucket stackName projectId azure).2) ∧
    (w.selectExitCode = 0 → w.configSetExec = .ok → w.destroyExec = .ok →
      w.rmExec = .ok →
      destroyApp w stateBucket stackName projectId azure =
        (.ok true,
          [.installDeps, .login (pulumiBackendUrl stateBucket azure),
           .select stackName] ++
          (if !azure && jsTruthy projectId then
            [.configSet "gcp:project".toList (projectId.getD [])] else []) ++
          [.destroy, .stackRm])) ∧
    (w.selectExitCode = 0 → (!azure && jsTruthy projectId) = true →
      ∀ m, w.configSetExec = .fail m →
        (destroyApp w stateBucket stackName projectId azure).1 = .error m) ∧
    (w.selectExitCode = 0 → w.configSetExec = .ok →
      ∀ m, w.destroyExec = .fail m →
        (destroyApp w stateBucket stackName projectId azure).1 = .error m) ∧
    (w.selectExitCode = 0 → w.configSetExec = .ok → w.destroyExec = .ok →
      ∀ m, w.rmExec = .fail m →
        (destroyApp w stateBucket stackName projectId azure).1 = .error m) := by
  refine ⟨fun hsel => ?_, fun hsel hcfg hdes hrm => ?_,
    fun hsel hc m hcfg => ?_,
    fun hsel hcfg m hdes => ?_, fun hsel hcfg hdes m hrm => ?_⟩
  · have hres : destroyApp w stateBucket stackName projectId azure =
        (.ok false,
          [.installDeps, .login (pulumiBackendUrl stateBucket azure),
           .select stackName]) := by
      unfold destroyApp
      rw [hin, hlog]
      simp [hsel]
    refine ⟨hres, ?_, ?_, fun k v => ?_⟩ <;> rw [hres] <;> simp
  · unfold destroyApp
    rw [hin, hlog]
    by_cases hc : (!azure && jsTruthy projectId) = true <;>
      simp [hsel, hc, hcfg, hdes, hrm]
  · unfold destroyApp
    rw [hin, hlog]
    simp [hsel, hc, hcfg]
  · unfold destroyApp
    rw [hin, hlog]
    by_cases hc : (!azure && jsTruthy projectId) = true <;>
      simp [hsel, hc, hcfg, hdes]
  · unfold destroyApp
    rw [hin, hlog]
    by_cases hc : (!azure && jsTruthy projectId) = true <;>
      simp [hsel, hc, hcfg, hdes, hrm]

/-- A world where the stack does not exist: selection exits nonzero. -/
def noStackWorld : DestroyWorld where
  installExec := .ok
  loginExec := .ok
  selectExitCode := 1
  configSetExec := .ok
  destroyExec := .ok
  rmExec := .ok

/-- C6 witness: destroying a nonexistent stack returns `false` without
error and without a destroy or removal invocation. -/
theorem claim6_witness :
    noStackWorld.installExec = .ok ∧ noStackWorld.selectExitCode ≠ 0 ∧
      destroyApp noStackWorld "my-bucket".toList
          "organization/app/demo-gone".toList (some "my-project".toList)
          false =
        (.ok false,
          [.installDeps, .login (pulumiBackendUrl "my-bucket".toList false),
           .select "organization/app/demo-gone".toList]) :=
  ⟨rfl, by decide,
    ((claim6_destroyApp noStackWorld "my-bucket".toList
      "organization/app/demo-gone".toList (some "my-project".toList) false
      rfl rfl).1 (by decide)).1⟩
